import Mathlib

/-!
Verification of `ndServiceRegistry/watcher.py` (the `Watcher` class): a shallow
embedding of its state, its two Kazoo watch handlers, its callback registry and
its start/stop flag, together with theorems settling the specification's claims.

Embedding conventions:
* The ZooKeeper tree visible to a synchronous `zk.get` call is an association
  list from path to node content; `zk.retry(zk.get, path)` is a direct lookup
  (the retry policy is the client's and is opaque to the watcher).
* Python callbacks are identified by decidable tokens (`Nat`); an invocation is
  recorded as an event carrying the callback token and the snapshot passed to it.
* A handler body that raises (a `zk.get` on a vanished node) is `none`: the
  Python exception aborts the handler before any cache field is assigned.
-/

namespace NdWatcher

/-- Content of one znode as returned by `zk.get`: raw payload bytes and the
`ZnodeStat` structure, modelled as an opaque version number. -/
structure ZNode where
  raw : String
  stat : Nat
deriving Repr, DecidableEq

/-- The tree of znodes a synchronous read can see, as an association list. -/
def ZkTree := List (String × ZNode)

/-- Lookup of a path in the tree; `none` means `zk.get` raises `NoNodeError`. -/
def zkLookup (t : ZkTree) (p : String) : Option ZNode :=
  match t with
  | [] => none
  | (q, nd) :: rest => if q = p then some nd else zkLookup rest p

/-- Modelled from the spec: `funcs.decode` (module `ndServiceRegistry.funcs`,
which is not among the sources) decodes a raw payload.  The spec keeps the
serialization format out of scope, so the decoder on present bytes is an
arbitrary parameter `dec`; per the spec's data model the decoded payload is
"absent/empty if the node does not currently exist", so an absent raw payload
decodes to an absent result. -/
def decode (dec : String → String) : Option String → Option String
  | none => none
  | some s => some (dec s)

/-- State of one `Watcher` object (`__init__`, lines 66-91): the path, the
`watch_children` argument, the caches `_children`, `_data`, `_stat`, the
callback list `_callbacks`, the `_state` flag, and which of the two Kazoo
watches `_begin` registered. -/
structure Watcher where
  path : String
  watch_children : Bool
  children : List (String × Option String)
  data : Option String
  stat : Option Nat
  callbacks : List Nat
  state : Bool
  dataWatchArmed : Bool
  childWatchArmed : Bool
deriving Repr, DecidableEq

/-- The dictionary `get()` builds (lines 93-100). -/
structure Snapshot where
  stat : Option Nat
  path : String
  data : Option String
  children : List (String × Option String)
deriving Repr, DecidableEq

/-- Method `get` (lines 93-100): packs the four cached fields into a fresh dict. -/
def Watcher.get (w : Watcher) : Snapshot :=
  { stat := w.stat, path := w.path, data := w.data, children := w.children }

/-- Method `stop` (lines 102-105): clears the `_state` flag. -/
def Watcher.stop (w : Watcher) : Watcher :=
  { w with state := false }

/-- Method `start` (lines 107-110): sets the `_state` flag. -/
def Watcher.start (w : Watcher) : Watcher :=
  { w with state := true }

/-- One recorded callback invocation: which callback ran and the snapshot it
received. -/
structure CbCall where
  cb : Nat
  snap : Snapshot
deriving Repr, DecidableEq

/-- Method `_execute_callbacks` (lines 168-182): when `_state` is unset it
returns at once; otherwise it calls every registered callback, in order, with
`self.get()`. -/
def execute_callbacks (w : Watcher) : List CbCall :=
  if w.state then w.callbacks.map (fun c => { cb := c, snap := w.get }) else []

/-- Method `add_callback` (lines 116-125): scans `_callbacks` for an equal
entry; if found, warns and returns, otherwise appends the callback and invokes
it once with `self.get()`. -/
def add_callback (w : Watcher) (cb : Nat) : Watcher × List CbCall :=
  if cb ∈ w.callbacks then
    (w, [])
  else
    let w' := { w with callbacks := w.callbacks ++ [cb] }
    (w', [{ cb := cb, snap := w'.get }])

/-- Handler `_update_root_data` (lines 131-150), parameters `(data, stat)` of
the `DataWatch`.  When the notification's `stat` is present the handler fetches
`(data, self._stat) = zk.retry(zk.get, path)` — line 141 stores the fetched
stat, but line 147 `self._stat = stat` then overwrites it with the
notification's stat, so only the fetched raw payload survives.  When `stat` is
absent the passed-in `data` is decoded as-is.  Returns the new state, the list
of paths fetched, and the callback invocations of `_execute_callbacks`;
`none` when the fetch on line 141 raises (state unchanged, handler aborted). -/
def update_root_data (t : ZkTree) (dec : String → String)
    (ndata : Option String) (nstat : Option Nat) (w : Watcher) :
    Option (Watcher × List String × List CbCall) :=
  match nstat with
  | some st =>
    match zkLookup t w.path with
    | none => none
    | some nd =>
      let w' := { w with data := decode dec (some nd.raw), stat := some st }
      some (w', [w.path], execute_callbacks w')
  | none =>
    let w' := { w with data := decode dec ndata, stat := none }
    some (w', [], execute_callbacks w')

/-- Path of a child node, `'%s/%s' % (self._path, child)` (line 162). -/
def fullPath (p c : String) : String := p ++ "/" ++ c

/-- Insertion into a Python dict: an existing key keeps its position and gets
the new value, a new key is appended. -/
def dictInsert (m : List (String × Option String)) (k : String)
    (v : Option String) : List (String × Option String) :=
  match m with
  | [] => [(k, v)]
  | (k', v') :: rest =>
    if k' = k then (k', v) :: rest else (k', v') :: dictInsert rest k v

/-- Loop body of `_update_child_list` (lines 161-164): for each listed child,
fetch its node and store the decoded payload in the dict being built.  Returns
the finished dict and the list of fetched paths; `none` when some fetch raises
(loop aborted, `self._children` never assigned). -/
def childLoop (t : ZkTree) (dec : String → String) (p : String) :
    List String → List (String × Option String) →
    Option (List (String × Option String) × List String)
  | [], acc => some (acc, [])
  | c :: cs, acc =>
    match zkLookup t (fullPath p c) with
    | none => none
    | some nd =>
      match childLoop t dec p cs (dictInsert acc c (decode dec (some nd.raw))) with
      | none => none
      | some (m, log) => some (m, fullPath p c :: log)

/-- Handler `_update_child_list` (lines 158-166), parameter `data` of the
`ChildrenWatch`: builds a fresh dict from the reported names, assigns it to
`self._children`, and runs `_execute_callbacks`. -/
def update_child_list (t : ZkTree) (dec : String → String)
    (names : List String) (w : Watcher) :
    Option (Watcher × List String × List CbCall) :=
  match childLoop t dec w.path names [] with
  | none => none
  | some (m, log) =>
    let w' := { w with children := m }
    some (w', log, execute_callbacks w')

/-- Result of running `__init__`/`_begin` (lines 66-91, 127-157): the
constructed watcher (or the propagated error when `zk.exists` on line 155
raises), how many `exists` calls were made, and the callback invocations the
constructor itself performed. -/
structure InitResult where
  res : Except Unit Watcher
  existsCalls : Nat
  events : List CbCall
deriving Repr

/-- Constructor `__init__` together with `_begin`.  `exq` is the outcome of the
single `self._zk.exists(self._path)` call on line 155: `.error ()` when it
raises a communication error (which propagates and aborts construction),
`.ok b` when it reports existence `b`.  The data watch is registered
unconditionally (line 130); the child watch only when the node exists and
`watch_children` holds (line 155).  The constructor appends the optional
callback without invoking it (lines 83-84). -/
def init (exq : Except Unit Bool) (path : String) (cb0 : Option Nat)
    (wc : Bool) : InitResult :=
  let base : Watcher :=
    { path := path, watch_children := wc, children := [],
      data := none, stat := none,
      callbacks := match cb0 with | some c => [c] | none => [],
      state := true, dataWatchArmed := true, childWatchArmed := false }
  match exq with
  | .error e => { res := .error e, existsCalls := 1, events := [] }
  | .ok b =>
    { res := .ok { base with childWatchArmed := b && wc },
      existsCalls := 1, events := [] }

/-- One external stimulus applied to a live watcher.  A data notification
carries only the stat: with `allow_missing_node=True` the `data` argument Kazoo
passes "is ALWAYS None" (code comment, lines 134-135).  Each notification also
carries the tree the ensuing synchronous fetches will see. -/
inductive Step where
  | dataNotif (nstat : Option Nat) (t : ZkTree)
  | childNotif (names : List String) (t : ZkTree)
  | addCb (cb : Nat)
  | startW
  | stopW

/-- Effect of one stimulus: the new watcher state and the callback invocations
it produced.  A child notification only reaches the watcher when the child
watch was registered by `_begin`; a handler whose fetch raises leaves the state
unchanged (the exception fires before any assignment to the caches). -/
def applyStepE (dec : String → String) (w : Watcher) : Step → Watcher × List CbCall
  | .dataNotif nstat t =>
    match update_root_data t dec none nstat w with
    | some (w', _, evs) => (w', evs)
    | none => (w, [])
  | .childNotif names t =>
    if w.childWatchArmed then
      match update_child_list t dec names w with
      | some (w', _, evs) => (w', evs)
      | none => (w, [])
    else (w, [])
  | .addCb cb => add_callback w cb
  | .startW => (w.start, [])
  | .stopW => (w.stop, [])

/-- State after one stimulus, events discarded. -/
def applyStep (dec : String → String) (w : Watcher) (s : Step) : Watcher :=
  (applyStepE dec w s).1

/-- State after a sequence of stimuli. -/
def run (dec : String → String) (w : Watcher) : List Step → Watcher
  | [] => w
  | s :: rest => run dec (applyStep dec w s) rest

/-- Mapping `_update_child_list` builds from a reported name list: each name
paired with its freshly fetched decoded payload. -/
def childrenOf (t : ZkTree) (dec : String → String) (p : String)
    (names : List String) : List (String × Option String) :=
  names.map (fun c => (c, (zkLookup t (fullPath p c)).map (fun n => dec n.raw)))

/-- Invariant of the spec's data model: an absent cached stat means an absent
cached data payload. -/
def dataStatInv (w : Watcher) : Prop := w.stat = none → w.data = none

/-!
Reference-tracking model for claim C9.  The pure model above cannot express
Python aliasing: `get()` (line 99) stores into the returned dict a reference
to the live `self._children` dict, not a copy, so whether a previously
returned snapshot can change depends on whether the handlers mutate that dict
in place or rebind `self._children` to a new dict.  The following definitions
re-translate the same source lines, additionally tracking the identity of
every dict object in a heap: `_update_child_list` allocates a fresh dict
(line 160 `children = \x7b\x7d`), fills it by in-place insertion (line 164),
and rebinds `self._children` (line 165); `_update_root_data` only rebinds
`self._data`/`self._stat` (payloads and stats are immutable values). -/

/-- Lookup of a dict id in a heap cell list. -/
def cellLookup : List (Nat × List (String × Option String)) → Nat →
    Option (List (String × Option String))
  | [], _ => none
  | (i, m) :: rest, r => if i = r then some m else cellLookup rest r

/-- Heap of Python dict objects: cell id to contents, plus the next fresh id. -/
structure DictHeap where
  cells : List (Nat × List (String × Option String))
  next : Nat

/-- Contents of the dict a reference points to. -/
def heapGet (h : DictHeap) (r : Nat) : Option (List (String × Option String)) :=
  cellLookup h.cells r

/-- Update of the cell with id `r` in a cell list (ids are unique in any
well-formed heap, so updating the first match suffices). -/
def setCells : List (Nat × List (String × Option String)) → Nat → String →
    Option String → List (Nat × List (String × Option String))
  | [], _, _, _ => []
  | (j, m) :: rest, r, k, v =>
    if j = r then (j, dictInsert m k v) :: rest
    else (j, m) :: setCells rest r k v

/-- In-place insertion `d[k] = v` on the dict with id `r`. -/
def heapSet (h : DictHeap) (r : Nat) (k : String) (v : Option String) :
    DictHeap :=
  { h with cells := setCells h.cells r k v }

/-- Watcher state in the reference-tracking model: `children` is a reference
to a heap dict. -/
structure WatcherR where
  path : String
  childrenRef : Nat
  data : Option String
  stat : Option Nat

/-- Snapshot built by `get()` in the reference-tracking model: line 99 copies
the reference to the live children dict into the fresh result dict. -/
structure SnapshotR where
  stat : Option Nat
  path : String
  data : Option String
  childrenRef : Nat

/-- Method `get` (lines 93-100) in the reference-tracking model: a pure read
of the four fields, the children entry shared by reference. -/
def WatcherR.get (w : WatcherR) : SnapshotR :=
  { stat := w.stat, path := w.path, data := w.data,
    childrenRef := w.childrenRef }

/-- Loop of `_update_child_list` (lines 161-164) in the reference-tracking
model: in-place inserts into the dict with id `r`. -/
def childLoopR (t : ZkTree) (dec : String → String) (p : String) (r : Nat) :
    List String → DictHeap → Option DictHeap
  | [], h => some h
  | c :: cs, h =>
    match zkLookup t (fullPath p c) with
    | none => none
    | some nd => childLoopR t dec p r cs (heapSet h r c (decode dec (some nd.raw)))

/-- Handler `_update_child_list` (lines 158-166) in the reference-tracking
model: allocates a fresh empty dict, fills it in place, rebinds
`self._children` to it.  On a failed fetch the handler aborts with the
reference not rebound (the partially filled fresh dict is unreachable). -/
def update_child_listR (t : ZkTree) (dec : String → String)
    (names : List String) (h : DictHeap) (w : WatcherR) :
    Option (DictHeap × WatcherR) :=
  let r := h.next
  let h1 : DictHeap := { cells := h.cells ++ [(r, [])], next := h.next + 1 }
  match childLoopR t dec w.path r names h1 with
  | none => none
  | some h2 => some (h2, { w with childrenRef := r })

/-- Handler `_update_root_data` (lines 131-150) in the reference-tracking
model: rebinds the immutable `data`/`stat` fields, touches no dict. -/
def update_root_dataR (t : ZkTree) (dec : String → String) (nstat : Option Nat)
    (h : DictHeap) (w : WatcherR) : Option (DictHeap × WatcherR) :=
  match nstat with
  | some st =>
    match zkLookup t w.path with
    | none => none
    | some nd => some (h, { w with data := some (dec nd.raw), stat := some st })
  | none => some (h, { w with data := none, stat := none })

/-- One handler firing in the reference-tracking model. -/
inductive StepR where
  | dataNotifR (nstat : Option Nat) (t : ZkTree)
  | childNotifR (names : List String) (t : ZkTree)

/-- Effect of one firing on heap and watcher; a raising handler leaves the
watcher unchanged. -/
def applyStepR (dec : String → String) (hw : DictHeap × WatcherR) :
    StepR → DictHeap × WatcherR
  | .dataNotifR nstat t =>
    match update_root_dataR t dec nstat hw.1 hw.2 with
    | some p => p
    | none => hw
  | .childNotifR names t =>
    match update_child_listR t dec names hw.1 hw.2 with
    | some p => p
    | none => hw

/-- Heap and watcher after a sequence of handler firings. -/
def runR (dec : String → String) (hw : DictHeap × WatcherR) :
    List StepR → DictHeap × WatcherR
  | [] => hw
  | s :: rest => runR dec (applyStepR dec hw s) rest

/-- Well-formed heap/watcher pair: every allocated id and the live children
reference are below the allocation counter. -/
def wfR (h : DictHeap) (w : WatcherR) : Prop :=
  (∀ p ∈ h.cells, p.1 < h.next) ∧ w.childrenRef < h.next

/-- Everything a holder of snapshot `s` can observe: the three immutable
fields and the contents of the dict its children entry references. -/
def snapView (h : DictHeap) (s : SnapshotR) :
    Option Nat × String × Option String ×
      Option (List (String × Option String)) :=
  (s.stat, s.path, s.data, heapGet h s.childrenRef)

/-- Heap fixture for the C9 witness: one allocated dict holding one entry. -/
def h0R : DictHeap := { cells := [(0, [("a", some "v")])], next := 1 }

/-- Watcher fixture for the C9 witness, referencing the dict `0` of `h0R`. -/
def w0R : WatcherR := { path := "/s", childrenRef := 0, data := none, stat := none }

/-! Concrete fixtures used by witnesses: a watcher as produced by
`init (.ok true) "/s" none true`, and small trees. -/

/-- Watcher freshly constructed on path `/s` with no initial callback. -/
def w00 : Watcher :=
  { path := "/s", watch_children := true, children := [], data := none,
    stat := none, callbacks := [], state := true, dataWatchArmed := true,
    childWatchArmed := true }

/-- Tree with the watched node `/s` (stat 5) and one child node `/s/a`. -/
def tEx : ZkTree :=
  [("/s", { raw := "x", stat := 5 }), ("/s/a", { raw := "va", stat := 6 })]

/-- Tree with two child nodes of `/s`. -/
def tEx2 : ZkTree :=
  [("/s/a", { raw := "va", stat := 1 }), ("/s/b", { raw := "vb", stat := 2 })]

/-- State of `w00` after the data handler sees stat 5 and fetches `/s`. -/
def wA : Watcher := { w00 with data := some "x", stat := some 5 }

/-- State of `w00` after the child handler rebuilds `children` from `["a"]`. -/
def wB : Watcher := { w00 with children := [("a", some "va")] }

/-- Paused variant of `wA`. -/
def wAp : Watcher := { wA with state := false }

/-- Watcher as produced by `init (.ok true) "/s" (some 7) true`: constructed
with an initial callback. -/
def w07 : Watcher := { w00 with callbacks := [7] }

/-! Shape lemmas about the two handlers, shared by several claims. -/

/-- When `_state` is unset, `_execute_callbacks` runs nothing. -/
lemma execute_callbacks_false {w : Watcher} (h : w.state = false) :
    execute_callbacks w = [] := by
  simp [execute_callbacks, h]

/-- Every successful run of `_update_root_data` leaves all fields other than
`_data` and `_stat` untouched, and its events are those of
`_execute_callbacks` on the new state. -/
lemma update_root_data_shape {t : ZkTree} {dec : String → String}
    {nd : Option String} {ns : Option Nat} {w w' : Watcher}
    {log : List String} {evs : List CbCall}
    (h : update_root_data t dec nd ns w = some (w', log, evs)) :
    w'.children = w.children ∧ w'.path = w.path ∧ w'.callbacks = w.callbacks ∧
    w'.state = w.state ∧ w'.childWatchArmed = w.childWatchArmed ∧
    w'.dataWatchArmed = w.dataWatchArmed ∧
    w'.watch_children = w.watch_children ∧ evs = execute_callbacks w' := by
  cases ns with
  | none =>
    simp only [update_root_data, Option.some.injEq, Prod.mk.injEq] at h
    obtain ⟨hw, -, hevs⟩ := h
    subst hw
    exact ⟨rfl, rfl, rfl, rfl, rfl, rfl, rfl, hevs.symm⟩
  | some st =>
    cases hl : zkLookup t w.path with
    | none => simp [update_root_data, hl] at h
    | some nd0 =>
      simp only [update_root_data, hl, Option.some.injEq, Prod.mk.injEq] at h
      obtain ⟨hw, -, hevs⟩ := h
      subst hw
      exact ⟨rfl, rfl, rfl, rfl, rfl, rfl, rfl, hevs.symm⟩

/-- Values written by a successful `_update_root_data` on a notification whose
stat is present: the data comes from the fetch, the cached stat is the
notification's stat (line 147 overwrites line 141's fetched stat), and exactly
the watched path is fetched. -/
lemma update_root_data_values {t : ZkTree} {dec : String → String}
    {nd : Option String} {st : Nat} {w w' : Watcher}
    {log : List String} {evs : List CbCall}
    (h : update_root_data t dec nd (some st) w = some (w', log, evs)) :
    w'.stat = some st ∧
    w'.data = (zkLookup t w.path).map (fun n => dec n.raw) ∧
    log = [w.path] := by
  cases hl : zkLookup t w.path with
  | none => simp [update_root_data, hl] at h
  | some nd0 =>
    simp only [update_root_data, hl, Option.some.injEq, Prod.mk.injEq] at h
    obtain ⟨hw, hlog, -⟩ := h
    subst hw
    exact ⟨rfl, by simp [decode], hlog.symm⟩

/-- On a notification whose stat is absent, `_update_root_data` never raises:
it decodes the passed-in payload and clears the stat, fetching nothing. -/
lemma update_root_data_none_eq (t : ZkTree) (dec : String → String)
    (nd : Option String) (w : Watcher) :
    update_root_data t dec nd none w =
      some ({ w with data := decode dec nd, stat := none }, [],
            execute_callbacks { w with data := decode dec nd, stat := none }) := rfl

/-- Every successful run of `_update_child_list` leaves all fields other than
`_children` untouched, and its events are those of `_execute_callbacks` on the
new state. -/
lemma update_child_list_shape {t : ZkTree} {dec : String → String}
    {names : List String} {w w' : Watcher}
    {log : List String} {evs : List CbCall}
    (h : update_child_list t dec names w = some (w', log, evs)) :
    w'.data = w.data ∧ w'.stat = w.stat ∧ w'.path = w.path ∧
    w'.callbacks = w.callbacks ∧ w'.state = w.state ∧
    w'.childWatchArmed = w.childWatchArmed ∧
    w'.dataWatchArmed = w.dataWatchArmed ∧
    w'.watch_children = w.watch_children ∧ evs = execute_callbacks w' := by
  cases hc : childLoop t dec w.path names [] with
  | none => simp [update_child_list, hc] at h
  | some ml =>
    obtain ⟨m, lg⟩ := ml
    simp only [update_child_list, hc, Option.some.injEq, Prod.mk.injEq] at h
    obtain ⟨hw, -, hevs⟩ := h
    subst hw
    exact ⟨rfl, rfl, rfl, rfl, rfl, rfl, rfl, rfl, hevs.symm⟩

/-- C4.  `add_callback` of a not-yet-registered callback appends it and
invokes it exactly once, immediately, with the current snapshot; after that,
the registry holds exactly one copy and a second registration attempt neither
appends nor invokes; the catch-up call is not gated by the activity flag
(both the paused and the running variant of the watcher produce exactly one
immediate invocation). -/
theorem add_callback_idempotent_catchup (w : Watcher) (cb : Nat)
    (h : cb ∉ w.callbacks) :
    add_callback w cb =
      ({ w with callbacks := w.callbacks ++ [cb] },
       [{ cb := cb,
          snap := Watcher.get { w with callbacks := w.callbacks ++ [cb] } }]) ∧
    (add_callback w cb).1.callbacks.count cb = 1 ∧
    add_callback (add_callback w cb).1 cb = ((add_callback w cb).1, []) ∧
    (∀ w2 : Watcher, cb ∈ w2.callbacks → add_callback w2 cb = (w2, [])) ∧
    (add_callback w.stop cb).2.length = 1 ∧
    (add_callback w.start cb).2.length = 1 := by
  have h0 : w.callbacks.count cb = 0 := List.count_eq_zero.mpr h
  refine ⟨by simp [add_callback, h], ?_, ?_, ?_, ?_, ?_⟩
  · simp [add_callback, h, List.count_append, h0]
  · simp [add_callback, h]
  · intro w2 hm
    simp [add_callback, hm]
  · simp [add_callback, Watcher.stop, h]
  · simp [add_callback, Watcher.start, h]

/-- Witness for C4 at a concrete watcher and callback token. -/
theorem add_callback_idempotent_catchup_w :
    add_callback w00 7 =
      ({ w00 with callbacks := [7] },
       [{ cb := 7, snap := Watcher.get { w00 with callbacks := [7] } }]) ∧
    (add_callback w00 7).1.callbacks.count 7 = 1 ∧
    add_callback (add_callback w00 7).1 7 = ((add_callback w00 7).1, []) ∧
    (∀ w2 : Watcher, 7 ∈ w2.callbacks → add_callback w2 7 = (w2, [])) ∧
    (add_callback w00.stop 7).2.length = 1 ∧
    (add_callback w00.start 7).2.length = 1 :=
  add_callback_idempotent_catchup w00 7 (by decide)

/-- C7.  When the single `zk.exists` call of `_begin` raises a communication
error, construction fails with the error surfaced to the caller, the existence
check is not retried (one call), and no callback was invoked. -/
theorem construction_error_surfaced (p : String) (cb0 : Option Nat) (wc : Bool) :
    (init (.error ()) p cb0 wc).res = .error () ∧
    (init (.error ()) p cb0 wc).existsCalls = 1 ∧
    (init (.error ()) p cb0 wc).events = [] :=
  ⟨rfl, rfl, rfl⟩

/-- C8.  The two handlers write disjoint snapshot fields: a successful
`_update_root_data` (including one with the node reported missing) leaves
`children` untouched, and a successful `_update_child_list` leaves `data`,
`stat` and `path` untouched. -/
theorem handlers_write_disjoint_fields (t1 t2 : ZkTree) (dec : String → String)
    (nd : Option String) (ns : Option Nat) (names : List String)
    (w1 w2 w1' w2' : Watcher) (log1 log2 : List String)
    (evs1 evs2 : List CbCall)
    (h1 : update_root_data t1 dec nd ns w1 = some (w1', log1, evs1))
    (h2 : update_child_list t2 dec names w2 = some (w2', log2, evs2)) :
    w1'.children = w1.children ∧ w1'.path = w1.path ∧
    w2'.data = w2.data ∧ w2'.stat = w2.stat ∧ w2'.path = w2.path := by
  obtain ⟨hc, hp, -⟩ := update_root_data_shape h1
  obtain ⟨hd, hs, hp2, -⟩ := update_child_list_shape h2
  exact ⟨hc, hp, hd, hs, hp2⟩

/-- Witness for C8 at concrete handler runs on `tEx`. -/
theorem handlers_write_disjoint_fields_w :
    wA.children = w00.children ∧ wA.path = w00.path ∧
    wB.data = w00.data ∧ wB.stat = w00.stat ∧ wB.path = w00.path :=
  handlers_write_disjoint_fields tEx tEx id none (some 5) ["a"] w00 w00 wA wB
    ["/s"] ["/s/a"] [] [] rfl rfl

/-- C1, counterexample to the claim as stated.  On tree `tEx` the node `/s`
has stat 5, so the fetch of line 141 returns stat 5; a notification carrying
stat 7 nevertheless leaves the cache with stat 7, because line 147 overwrites
the fetched stat with the notification's stat.  The cached metadata is
therefore not "the metadata returned by that same fetch". -/
theorem data_change_fetched_stat_overwritten :
    (update_root_data tEx id none (some 7) w00).map (fun r => r.1.stat)
      = some (some 7) ∧
    (zkLookup tEx "/s").map ZNode.stat = some 5 ∧
    (7 : Nat) ≠ 5 :=
  ⟨rfl, rfl, by decide⟩

/-- C1 as amended.  After a successful data-change handler run: if the
notification reports the node exists, the cached data is the decoded payload
freshly fetched via the client's get call while the cached metadata is the
stat carried by the notification (line 147 overwrites the stat of the fetch),
and exactly the watched path was fetched; if the notification reports the node
missing, cached data and metadata are both absent.  In both cases the cached
metadata is absent iff the node was reported non-existent. -/
theorem data_change_updates_cache (t : ZkTree) (dec : String → String)
    (w : Watcher) :
    (∀ st w' log evs,
      update_root_data t dec none (some st) w = some (w', log, evs) →
      w'.stat = some st ∧
      w'.data = (zkLookup t w.path).map (fun n => dec n.raw) ∧
      log = [w.path]) ∧
    (update_root_data t dec none none w).map (fun r => (r.1.data, r.1.stat))
      = some (none, none) := by
  refine ⟨?_, rfl⟩
  intro st w' log evs h
  exact update_root_data_values h

/-- Witness for the amended C1, at the concrete tree `tEx` and watcher `w00`:
a successful run on a notification with stat 5 caches the fetched decoded
payload, the notification's stat, and fetched exactly `/s`. -/
theorem data_change_updates_cache_w :
    wA.stat = some 5 ∧
    wA.data = (zkLookup tEx w00.path).map (fun n => id n.raw) ∧
    (["/s"] : List String) = [w00.path] :=
  (data_change_updates_cache tEx id w00).1 5 wA ["/s"] [] rfl

/-- Inserting a key that is not present in a dict appends it at the end. -/
lemma dictInsert_notMem {m : List (String × Option String)} {k : String}
    {v : Option String} (h : ∀ q ∈ m, q.1 ≠ k) :
    dictInsert m k v = m ++ [(k, v)] := by
  induction m with
  | nil => rfl
  | cons q rest ih =>
    obtain ⟨k', v'⟩ := q
    have hk : ¬ (k' = k) := h (k', v') (by simp)
    simp only [dictInsert, if_neg hk, List.cons_append, List.cons.injEq, true_and]
    exact ih (fun q hq => h q (List.mem_cons_of_mem _ hq))

/-- Loop of `_update_child_list` on a duplicate-free name list whose nodes all
exist: it succeeds, appends to the accumulator one entry per listed name (in
order, carrying that child's freshly fetched decoded payload) and fetches
exactly the full path of each listed name, once each. -/
lemma childLoop_spec (t : ZkTree) (dec : String → String) (p : String) :
    ∀ (names : List String) (acc : List (String × Option String)),
    names.Nodup → (∀ c ∈ names, (zkLookup t (fullPath p c)).isSome) →
    (∀ c ∈ names, ∀ q ∈ acc, q.1 ≠ c) →
    childLoop t dec p names acc =
      some (acc ++ childrenOf t dec p names, names.map (fullPath p)) := by
  intro names
  induction names with
  | nil => intro acc _ _ _; simp [childLoop, childrenOf]
  | cons c cs ih =>
    intro acc hnd hex hdisj
    obtain ⟨hcn, hnds⟩ := List.nodup_cons.mp hnd
    obtain ⟨nd, hnd0⟩ :=
      Option.isSome_iff_exists.mp (hex c (List.mem_cons_self c cs))
    have hins : dictInsert acc c (decode dec (some nd.raw))
        = acc ++ [(c, decode dec (some nd.raw))] :=
      dictInsert_notMem (fun q hq => hdisj c (List.mem_cons_self c cs) q hq)
    have hdisj' : ∀ c' ∈ cs, ∀ q ∈ acc ++ [(c, decode dec (some nd.raw))],
        q.1 ≠ c' := by
      intro c' hc' q hq
      rcases List.mem_append.mp hq with hqa | hqc
      · exact hdisj c' (List.mem_cons_of_mem _ hc') q hqa
      · have hq' : q = (c, decode dec (some nd.raw)) := by simpa using hqc
        subst hq'
        intro hh
        have hcc : c = c' := hh
        exact hcn (by rw [hcc]; exact hc')
    have ihc := ih (acc ++ [(c, decode dec (some nd.raw))]) hnds
      (fun c' hc' => hex c' (List.mem_cons_of_mem _ hc')) hdisj'
    simp only [childLoop, hnd0, hins, ihc, List.map_cons]
    simp [hnd0, decode, childrenOf, List.append_assoc]

/-- C2.  A successful child-change handler run on a duplicate-free reported
name set wholly replaces the cached `children` mapping with a freshly built
mapping whose key list is exactly the reported names, each mapped to that
child's freshly fetched decoded payload; exactly one fetch is issued per
reported name (the fetch log is exactly the full path of each name, once, and
nothing else), and the new mapping is built from scratch — no entry of the
previous `w.children` occurs in it (the result does not depend on
`w.children` at all). -/
theorem child_change_rebuilds_children (t : ZkTree) (dec : String → String)
    (names : List String) (w : Watcher)
    (h1 : names.Nodup)
    (h2 : ∀ c ∈ names, (zkLookup t (fullPath w.path c)).isSome) :
    update_child_list t dec names w =
      some ({ w with children := childrenOf t dec w.path names },
            names.map (fullPath w.path),
            execute_callbacks
              { w with children := childrenOf t dec w.path names }) := by
  have hc := childLoop_spec t dec w.path names [] h1 h2
    (by intro c _ q hq; simp at hq)
  simp [update_child_list, hc]

/-- Witness for C2: on `tEx2` the reported set `["a", "b"]` yields exactly the
two freshly fetched entries and exactly two fetches. -/
theorem child_change_rebuilds_children_w :
    update_child_list tEx2 id ["a", "b"] w00 =
      some ({ w00 with children := [("a", some "va"), ("b", some "vb")] },
            ["/s/a", "/s/b"],
            execute_callbacks
              { w00 with children := [("a", some "va"), ("b", some "vb")] }) :=
  child_change_rebuilds_children tEx2 id ["a", "b"] w00 (by decide) (by decide)

/-- No step ever changes which watches `_begin` registered. -/
lemma applyStep_armed (dec : String → String) (w : Watcher) (s : Step) :
    (applyStep dec w s).childWatchArmed = w.childWatchArmed := by
  cases s with
  | dataNotif nstat t =>
    simp only [applyStep, applyStepE]
    cases hl : update_root_data t dec none nstat w with
    | none => rfl
    | some pr =>
      obtain ⟨w', log, evs⟩ := pr
      simp only [hl]
      exact (update_root_data_shape hl).2.2.2.2.1
  | childNotif names t =>
    simp only [applyStep, applyStepE]
    cases hb : w.childWatchArmed with
    | false => simp [hb]
    | true =>
      simp only [if_true]
      cases hl : update_child_list t dec names w with
      | none => simpa [hl] using hb
      | some pr =>
        obtain ⟨w', log, evs⟩ := pr
        simp only [hl]
        exact ((update_child_list_shape hl).2.2.2.2.2.1).trans hb
  | addCb cb =>
    by_cases hm : cb ∈ w.callbacks <;>
      simp [applyStep, applyStepE, add_callback, hm]
  | startW => rfl
  | stopW => rfl

/-- Watch registration is immutable along any run. -/
lemma run_armed (dec : String → String) (steps : List Step) :
    ∀ w : Watcher, (run dec w steps).childWatchArmed = w.childWatchArmed := by
  induction steps with
  | nil => intro w; rfl
  | cons s rest ih =>
    intro w
    exact (ih (applyStep dec w s)).trans (applyStep_armed dec w s)

/-- C6.  At construction the data watch is armed unconditionally, the child
watch is armed iff the single `zk.exists` call reported the node present AND
`watch_children` was requested, the existence check is made exactly once, and
the child-watch decision is never revisited: after any sequence of later
steps (including notifications taken on trees where the node now exists) the
flag is unchanged. -/
theorem child_watch_armed_once (b : Bool) (p : String) (cb0 : Option Nat)
    (wc : Bool) (dec : String → String) (steps : List Step) :
    (init (.ok b) p cb0 wc).existsCalls = 1 ∧
    (init (.ok b) p cb0 wc).res.map
      (fun w0 => (w0.dataWatchArmed, w0.childWatchArmed,
                  (run dec w0 steps).childWatchArmed))
      = .ok (true, b && wc, b && wc) := by
  refine ⟨rfl, ?_⟩
  simp [init, Except.map, run_armed]

/-- Every step preserves the invariant that an absent cached stat forces an
absent cached data payload. -/
lemma applyStep_inv (dec : String → String) (w : Watcher) (s : Step)
    (h : dataStatInv w) : dataStatInv (applyStep dec w s) := by
  cases s with
  | dataNotif nstat t =>
    cases nstat with
    | none => intro _; rfl
    | some st =>
      simp only [applyStep, applyStepE]
      cases hl : update_root_data t dec none (some st) w with
      | none => exact h
      | some pr =>
        obtain ⟨w', log, evs⟩ := pr
        simp only [hl]
        intro hst
        rw [(update_root_data_values hl).1] at hst
        cases hst
  | childNotif names t =>
    simp only [applyStep, applyStepE]
    cases hb : w.childWatchArmed with
    | false => simpa using h
    | true =>
      simp only [if_true]
      cases hl : update_child_list t dec names w with
      | none => simpa [hl] using h
      | some pr =>
        obtain ⟨w', log, evs⟩ := pr
        simp only [hl]
        obtain ⟨hd, hs, -⟩ := update_child_list_shape hl
        intro hst
        rw [hd]
        exact h (by rw [← hs]; exact hst)
  | addCb cb =>
    simp only [applyStep, applyStepE, add_callback]
    by_cases hm : cb ∈ w.callbacks
    · simpa [hm] using h
    · simp only [hm, if_neg, if_false]
      intro hst
      exact h hst
  | startW => intro hst; exact h hst
  | stopW => intro hst; exact h hst

/-- The invariant holds along any run. -/
lemma run_inv (dec : String → String) (steps : List Step) :
    ∀ w : Watcher, dataStatInv w → dataStatInv (run dec w steps) := by
  induction steps with
  | nil => intro w h; exact h
  | cons s rest ih =>
    intro w h
    exact ih (applyStep dec w s) (applyStep_inv dec w s h)

/-- C3.  In every state reachable from construction through any sequence of
handler firings, registrations and start/stop calls, an absent cached
metadata implies an absent cached data payload, so `get()` never returns a
snapshot with data present but metadata absent. -/
theorem metadata_absent_implies_data_absent (b : Bool) (p : String)
    (cb0 : Option Nat) (wc : Bool) (dec : String → String) (steps : List Step)
    (w0 : Watcher) (h0 : (init (.ok b) p cb0 wc).res = .ok w0)
    (hs : (Watcher.get (run dec w0 steps)).stat = none) :
    (Watcher.get (run dec w0 steps)).data = none := by
  have hw0 : dataStatInv w0 := by
    simp only [init, Except.ok.injEq] at h0
    subst h0
    intro _
    rfl
  exact run_inv dec steps w0 hw0 hs

/-- Witness for C3: a run with one data notification (node missing) and one
child notification ends with absent metadata and, indeed, absent data. -/
theorem metadata_absent_implies_data_absent_w :
    (Watcher.get (run id w00
      [Step.dataNotif none tEx, Step.childNotif ["a"] tEx])).data = none :=
  metadata_absent_implies_data_absent true "/s" none true id
    [Step.dataNotif none tEx, Step.childNotif ["a"] tEx] w00 rfl rfl

/-- C5.  While the activity flag is unset, notifications of either kind
produce zero callback invocations, yet their cache updates are committed (a
successful handler run installs exactly the state it computed, and the
data-change cases show the committed values); `start()` itself invokes no
callback and only sets the flag. -/
theorem paused_commits_without_callbacks (dec : String → String) (w : Watcher)
    (h : w.state = false) :
    (∀ nstat t, (applyStepE dec w (.dataNotif nstat t)).2 = []) ∧
    (∀ names t, (applyStepE dec w (.childNotif names t)).2 = []) ∧
    (∀ t st w' log evs,
      update_root_data t dec none (some st) w = some (w', log, evs) →
      applyStepE dec w (.dataNotif (some st) t) = (w', []) ∧
      w'.stat = some st ∧
      w'.data = (zkLookup t w.path).map (fun n => dec n.raw)) ∧
    (∀ t, (applyStepE dec w (.dataNotif none t)).1.data = none ∧
          (applyStepE dec w (.dataNotif none t)).1.stat = none) ∧
    (∀ t names w' log evs, w.childWatchArmed = true →
      update_child_list t dec names w = some (w', log, evs) →
      applyStepE dec w (.childNotif names t) = (w', [])) ∧
    applyStepE dec w .startW = (w.start, []) := by
  refine ⟨?_, ?_, ?_, ?_, ?_, rfl⟩
  · intro nstat t
    simp only [applyStepE]
    cases hl : update_root_data t dec none nstat w with
    | none => rfl
    | some pr =>
      obtain ⟨w', log, evs⟩ := pr
      simp only [hl]
      obtain ⟨-, -, -, hstate, -, -, -, hevs⟩ := update_root_data_shape hl
      exact hevs.trans (execute_callbacks_false (hstate.trans h))
  · intro names t
    simp only [applyStepE]
    cases hb : w.childWatchArmed with
    | false => simp
    | true =>
      simp only [if_true]
      cases hl : update_child_list t dec names w with
      | none => simp [hl]
      | some pr =>
        obtain ⟨w', log, evs⟩ := pr
        simp only [hl]
        obtain ⟨-, -, -, -, hstate, -, -, -, hevs⟩ := update_child_list_shape hl
        exact hevs.trans (execute_callbacks_false (hstate.trans h))
  · intro t st w' log evs hl
    obtain ⟨-, -, -, hstate, -, -, -, hevs⟩ := update_root_data_shape hl
    have hevs0 : evs = [] := hevs.trans (execute_callbacks_false (hstate.trans h))
    obtain ⟨h1, h2, -⟩ := update_root_data_values hl
    subst hevs0
    exact ⟨by simp [applyStepE, hl], h1, h2⟩
  · intro t
    exact ⟨rfl, rfl⟩
  · intro t names w' log evs harm hl
    obtain ⟨-, -, -, -, hstate, -, -, -, hevs⟩ := update_child_list_shape hl
    have hevs0 : evs = [] := hevs.trans (execute_callbacks_false (hstate.trans h))
    subst hevs0
    simp [applyStepE, harm, hl]

/-- Witness for C5: with a paused concrete watcher, a data notification with
stat 5 produces no callback invocation yet commits stat 5 to the cache. -/
theorem paused_commits_without_callbacks_w :
    (applyStepE id (Watcher.stop w00) (.dataNotif (some 5) tEx)).2 = [] ∧
    (applyStepE id (Watcher.stop w00) (.dataNotif (some 5) tEx)).1.stat
      = some 5 := by
  have hp := paused_commits_without_callbacks id (Watcher.stop w00) rfl
  refine ⟨hp.1 (some 5) tEx, ?_⟩
  have hc := (hp.2.2.1 tEx 5 wAp ["/s"] [] rfl).1
  rw [show applyStepE id (Watcher.stop w00) (.dataNotif (some 5) tEx)
        = (wAp, []) from hc]
  rfl

/-- C10.  The constructor only appends the optional initial callback: it is
not invoked during construction (the constructor's event list is empty,
unlike a later `add_callback`, which invokes immediately); its first
invocation comes from a notification handler's dispatch, as the appended
conjunct shows for a data notification on the constructed state. -/
theorem initial_callback_not_invoked (b : Bool) (p : String) (c : Nat)
    (wc : Bool) (dec : String → String) (t : ZkTree) (w0 : Watcher)
    (h0 : (init (.ok b) p (some c) wc).res = .ok w0) :
    (init (.ok b) p (some c) wc).events = [] ∧
    w0.callbacks = [c] ∧
    (applyStepE dec w0 (.dataNotif none t)).2 =
      [{ cb := c, snap := (applyStepE dec w0 (.dataNotif none t)).1.get }] := by
  simp only [init, Except.ok.injEq] at h0
  subst h0
  exact ⟨rfl, rfl, rfl⟩

/-- Witness for C10 at a concrete construction with initial callback 7. -/
theorem initial_callback_not_invoked_w :
    (init (.ok true) "/s" (some 7) true).events = [] ∧
    w07.callbacks = [7] ∧
    (applyStepE id w07 (.dataNotif none tEx)).2 =
      [{ cb := 7, snap := (applyStepE id w07 (.dataNotif none tEx)).1.get }] :=
  initial_callback_not_invoked true "/s" 7 true id tEx w07 rfl

/-- In-place insertion into the dict with id `r` leaves every other dict's
contents unchanged. -/
lemma cellLookup_map_set {cells : List (Nat × List (String × Option String))}
    {r i : Nat} {k : String} {v : Option String} (hir : ¬ (i = r)) :
    cellLookup (setCells cells r k v) i = cellLookup cells i := by
  induction cells with
  | nil => rfl
  | cons q rest ih =>
    obtain ⟨j, m⟩ := q
    by_cases hjr : j = r
    · have hri : ¬ (r = i) := fun hh => hir hh.symm
      simp [setCells, cellLookup, hjr, hri]
    · by_cases hji : j = i
      · simp [setCells, cellLookup, hjr, hji, hir]
      · simp [setCells, cellLookup, hjr, hji, ih]

/-- Allocating a dict with a fresh id leaves lookups of other ids unchanged. -/
lemma cellLookup_append_ne {cells : List (Nat × List (String × Option String))}
    {n i : Nat} {m : List (String × Option String)} (h : ¬ (n = i)) :
    cellLookup (cells ++ [(n, m)]) i = cellLookup cells i := by
  induction cells with
  | nil => simp [cellLookup, h]
  | cons q rest ih =>
    obtain ⟨j, mm⟩ := q
    by_cases hji : j = i <;> simp [cellLookup, hji, ih]

/-- The child-refresh loop only writes to the dict with id `r`. -/
lemma childLoopR_lookup_ne (t : ZkTree) (dec : String → String) (p : String)
    (r : Nat) : ∀ (names : List String) (h h' : DictHeap),
    childLoopR t dec p r names h = some h' →
    ∀ i, ¬ (i = r) → heapGet h' i = heapGet h i := by
  intro names
  induction names with
  | nil =>
    intro h h' he i hir
    simp only [childLoopR, Option.some.injEq] at he
    subst he
    rfl
  | cons c cs ih =>
    intro h h' he i hir
    cases hz : zkLookup t (fullPath p c) with
    | none => simp [childLoopR, hz] at he
    | some nd =>
      simp only [childLoopR, hz] at he
      have hrec := ih (heapSet h r c (decode dec (some nd.raw))) h' he i hir
      rw [hrec]
      exact cellLookup_map_set hir

/-- The child-refresh loop allocates nothing: the counter is unchanged. -/
lemma childLoopR_next (t : ZkTree) (dec : String → String) (p : String)
    (r : Nat) : ∀ (names : List String) (h h' : DictHeap),
    childLoopR t dec p r names h = some h' → h'.next = h.next := by
  intro names
  induction names with
  | nil =>
    intro h h' he
    simp only [childLoopR, Option.some.injEq] at he
    subst he
    rfl
  | cons c cs ih =>
    intro h h' he
    cases hz : zkLookup t (fullPath p c) with
    | none => simp [childLoopR, hz] at he
    | some nd =>
      simp only [childLoopR, hz] at he
      exact ih (heapSet h r c (decode dec (some nd.raw))) h' he

/-- In-place insertion does not add cell ids. -/
lemma setCells_bound {r : Nat} {k : String} {v : Option String} {n : Nat} :
    ∀ cells : List (Nat × List (String × Option String)),
    (∀ p ∈ cells, p.1 < n) → ∀ p ∈ setCells cells r k v, p.1 < n := by
  intro cells
  induction cells with
  | nil => intro _ p hp; simp [setCells] at hp
  | cons q rest ih =>
    intro hb p hp
    obtain ⟨j, m⟩ := q
    by_cases hjr : j = r
    · simp only [setCells, if_pos hjr] at hp
      rcases List.mem_cons.mp hp with hh | hh
      · rw [hh]
        exact hb (j, m) (List.mem_cons_self _ _)
      · exact hb p (List.mem_cons_of_mem _ hh)
    · simp only [setCells, if_neg hjr] at hp
      rcases List.mem_cons.mp hp with hh | hh
      · rw [hh]
        exact hb (j, m) (List.mem_cons_self _ _)
      · exact ih (fun q' hq' => hb q' (List.mem_cons_of_mem _ hq')) p hh

/-- In-place insertion does not add cell ids (phrased on heaps). -/
lemma heapSet_bound {h : DictHeap} {r : Nat} {k : String} {v : Option String}
    {n : Nat} (hb : ∀ p ∈ h.cells, p.1 < n) :
    ∀ p ∈ (heapSet h r k v).cells, p.1 < n :=
  setCells_bound h.cells hb

/-- The child-refresh loop does not add cell ids. -/
lemma childLoopR_bound (t : ZkTree) (dec : String → String) (p : String)
    (r : Nat) : ∀ (names : List String) (h h' : DictHeap) (n : Nat),
    childLoopR t dec p r names h = some h' →
    (∀ q ∈ h.cells, q.1 < n) → ∀ q ∈ h'.cells, q.1 < n := by
  intro names
  induction names with
  | nil =>
    intro h h' n he hb
    simp only [childLoopR, Option.some.injEq] at he
    subst he
    exact hb
  | cons c cs ih =>
    intro h h' n he hb
    cases hz : zkLookup t (fullPath p c) with
    | none => simp [childLoopR, hz] at he
    | some nd =>
      simp only [childLoopR, hz] at he
      exact ih (heapSet h r c (decode dec (some nd.raw))) h' n he (heapSet_bound hb)

/-- One handler firing preserves well-formedness, never lowers the allocation
counter, and never changes the contents of any previously allocated dict. -/
lemma applyStepR_frame (dec : String → String) (s : StepR) {h : DictHeap}
    {w : WatcherR} (hwf : wfR h w) :
    wfR (applyStepR dec (h, w) s).1 (applyStepR dec (h, w) s).2 ∧
    h.next ≤ (applyStepR dec (h, w) s).1.next ∧
    ∀ i, i < h.next → heapGet (applyStepR dec (h, w) s).1 i = heapGet h i := by
  cases s with
  | dataNotifR nstat t =>
    cases nstat with
    | some st =>
      cases hz : zkLookup t w.path with
      | none =>
        simp only [applyStepR, update_root_dataR, hz]
        exact ⟨hwf, Nat.le_refl _, fun i _ => True.intro⟩
      | some nd =>
        simp only [applyStepR, update_root_dataR, hz]
        exact ⟨⟨hwf.1, hwf.2⟩, Nat.le_refl _, fun i _ => True.intro⟩
    | none =>
      exact ⟨⟨hwf.1, hwf.2⟩, Nat.le_refl _, fun i _ => rfl⟩
  | childNotifR names t =>
    simp only [applyStepR, update_child_listR]
    cases hc : childLoopR t dec w.path h.next names
        { cells := h.cells ++ [(h.next, [])], next := h.next + 1 } with
    | none =>
      simp only [hc]
      exact ⟨hwf, Nat.le_refl _, fun i _ => True.intro⟩
    | some h2 =>
      simp only [hc]
      have hnext : h2.next = h.next + 1 := childLoopR_next t dec w.path h.next names _ h2 hc
      refine ⟨⟨?_, ?_⟩, ?_, ?_⟩
      · intro q hq
        rw [hnext]
        refine childLoopR_bound t dec w.path h.next names _ h2 (h.next + 1) hc ?_ q hq
        intro q' hq'
        rcases List.mem_append.mp hq' with hq1 | hq2
        · exact Nat.lt_trans (hwf.1 q' hq1) (Nat.lt_succ_self _)
        · have : q' = (h.next, []) := by simpa using hq2
          rw [this]
          exact Nat.lt_succ_self _
      · rw [hnext]
        exact Nat.lt_succ_self _
      · rw [hnext]
        exact Nat.le_succ _
      · intro i hi
        have hir : ¬ (i = h.next) := Nat.ne_of_lt hi
        have e1 := childLoopR_lookup_ne t dec w.path h.next names _ h2 hc i hir
        rw [e1]
        exact cellLookup_append_ne (fun hh => hir hh.symm)

/-- Along any run of handler firings, the contents of every dict allocated
before the run are unchanged. -/
lemma runR_view (dec : String → String) : ∀ (steps : List StepR)
    (h : DictHeap) (w : WatcherR), wfR h w → ∀ i, i < h.next →
    heapGet (runR dec (h, w) steps).1 i = heapGet h i := by
  intro steps
  induction steps with
  | nil => intro h w _ i _; rfl
  | cons s rest ih =>
    intro h w hwf i hi
    obtain ⟨hwf', hle, hpres⟩ := applyStepR_frame dec s hwf
    have hrest := ih (applyStepR dec (h, w) s).1 (applyStepR dec (h, w) s).2
      hwf' i (Nat.lt_of_lt_of_le hi hle)
    exact hrest.trans (hpres i hi)

/-- C9.  `get()` is embedded as a pure projection (the source builds a fresh
result dict from plain field reads, so it has no side effect on the watcher),
and a snapshot it returned is never altered by later handler firings: its
`path`, `data` and `stat` entries are immutable values, and although its
`children` entry shares the live dict by reference (line 99), both handlers
only rebind `self._children` to a freshly allocated dict (lines 160, 165) or
rebind `self._data`/`self._stat`, so the dict a previous snapshot references
keeps its contents through any sequence of firings. -/
theorem get_snapshot_immutable (dec : String → String) (h : DictHeap)
    (w : WatcherR) (steps : List StepR) (hwf : wfR h w) :
    snapView (runR dec (h, w) steps).1 (WatcherR.get w)
      = snapView h (WatcherR.get w) := by
  have hv := runR_view dec steps h w hwf w.childrenRef hwf.2
  simp [snapView, WatcherR.get, hv]

/-- Witness for C9: one child-change firing rebuilds the children dict of a
concrete watcher, and the dict referenced by the pre-firing snapshot is
untouched. -/
theorem get_snapshot_immutable_w :
    snapView (runR id (h0R, w0R) [StepR.childNotifR ["b"] tEx2]).1
        (WatcherR.get w0R)
      = snapView h0R (WatcherR.get w0R) :=
  get_snapshot_immutable id h0R w0R [StepR.childNotifR ["b"] tEx2]
    ⟨by decide, by decide⟩

end NdWatcher
